import Mathlib

/-!
Shallow embedding of the LoRA-training subsystem of the Orch-Mind repository
(`src/scripts/python/lora_training/`), covering the dynamic step calculator,
the progress data model, the training-phase tagging, the model-name sanitizer,
the adapter registry, the multi-adapter SVD merge, and the training
orchestrator's pipeline control flow.

Modelling conventions:
* Python `int` is `ℤ` (or `ℕ` where the source value is a count).
* Python `float` arithmetic is modelled over `ℚ`; `int(x)` on the nonnegative
  values appearing here is `Int.floor`.
* Python strings are Lean `String`s; `str.strip()` and f-string formatting are
  embedded explicitly.
* File-system and subprocess effects are modelled as explicit state (assoc
  lists for the registry directory) or as abstract call results (for the
  orchestrator's collaborators).
-/

namespace OrchMind

/-- Python `str.strip()` whitespace set (space, \n, \t, \r, \x0b, \x0c). -/
def pySpace (c : Char) : Bool :=
  c.toNat = 32 || c.toNat = 10 || c.toNat = 9 || c.toNat = 13 ||
    c.toNat = 11 || c.toNat = 12

/-- Python `str.strip()`: drop whitespace from both ends. -/
def pyStrip (s : String) : String :=
  ⟨((s.data.dropWhile pySpace).reverse.dropWhile pySpace).reverse⟩

/-- Whether the character list `p` is a prefix of `l` (Boolean test). -/
def startsWithChars : List Char → List Char → Bool
  | [], _ => true
  | _ :: _, [] => false
  | a :: p, b :: l => a = b && startsWithChars p l

/-- Whether `p` occurs as a contiguous substring of `l`. -/
def hasSubstrChars (p : List Char) : List Char → Bool
  | [] => startsWithChars p []
  | b :: l => startsWithChars p (b :: l) || hasSubstrChars p l

/-- Whether the string `needle` occurs inside `hay`. -/
def strContains (hay needle : String) : Bool :=
  hasSubstrChars needle.data hay.data

/-- Round-half-to-even (Python `round`'s mode) of the fraction `num / den`,
for `den > 0`, computed with integer arithmetic. -/
def roundHalfEvenFrac (num den : ℤ) : ℤ :=
  let n := num / den
  let r := num - n * den
  if 2 * r < den then n
  else if den < 2 * r then n + 1
  else if n % 2 = 0 then n else n + 1

/-- Python `round(num / den, 2)` as an exact rational (`den > 0`). -/
def pyRound2Frac (num den : ℤ) : ℚ := mkRat (roundHalfEvenFrac (num * 100) den) 100

/-- Render a rational whose denominator divides 100 the way Python's `str`
renders the corresponding float: minimal decimal digits but at least one
(`457.0`, `0.5`, `114.25`).  Only used on the nonnegative, exactly
two-decimal values produced by `pyRound2Frac` in this development. -/
def ratStr (q : ℚ) : String :=
  let t : ℤ := q.num * 100 / (q.den : ℤ)
  let ip : ℤ := t / 100
  let h : ℤ := t - ip * 100
  if h % 10 = 0 then toString ip ++ "." ++ toString (h / 10)
  else if h < 10 then toString ip ++ ".0" ++ toString h
  else toString ip ++ "." ++ toString h

/-! ## `training_modules/step_calculator.py` -/

namespace StepCalculator

/-- `calculate_base_steps` from `step_calculator.py`. -/
def calculate_base_steps (dataset_size : ℕ) : ℕ :=
  if dataset_size ≤ 5 then 550
  else if dataset_size ≤ 10 then 650
  else if dataset_size ≤ 15 then 700
  else if dataset_size ≤ 25 then 800
  else if dataset_size ≤ 50 then 1000
  else if dataset_size ≤ 100 then 1300
  else if dataset_size ≤ 200 then 1600
  else min (2000 + (dataset_size - 200) * 5) 3000

/-- `calculate_rank_modifier`: the source's float constants 0.85, 1.0, 1.15,
1.3 as exact rationals. -/
def calculate_rank_modifier (lora_rank : ℕ) : ℚ :=
  if lora_rank ≤ 8 then mkRat 17 20
  else if lora_rank ≤ 16 then 1
  else if lora_rank ≤ 32 then mkRat 23 20
  else mkRat 13 10

/-- `calculate_lr_modifier`: thresholds 5e-4, 3e-4, 1e-4; factors 0.8, 1.0,
1.2, 1.4. -/
def calculate_lr_modifier (learning_rate : ℚ) : ℚ :=
  if mkRat 5 10000 ≤ learning_rate then mkRat 8 10
  else if mkRat 3 10000 ≤ learning_rate then 1
  else if mkRat 1 10000 ≤ learning_rate then mkRat 12 10
  else mkRat 14 10

/-- `calculate_complexity_modifier`: dict lookup with default 1.0. -/
def calculate_complexity_modifier (task_complexity : String) : ℚ :=
  if task_complexity = "simple" then mkRat 7 10
  else if task_complexity = "medium" then 1
  else if task_complexity = "complex" then mkRat 14 10
  else 1

/-- The `min_steps` local of `apply_safety_bounds`. -/
def min_steps_bound (dataset_size : ℕ) (is_incremental : Bool) : ℤ :=
  if is_incremental then 100
  else if dataset_size ≤ 10 then 400
  else if dataset_size ≤ 50 then 500
  else 800

/-- The `max_steps` local of `apply_safety_bounds`, after the absolute cap
`min(max_steps, 5000)`. -/
def max_steps_bound (dataset_size : ℕ) : ℤ :=
  min
    (if dataset_size ≤ 5 then 1000
     else if dataset_size ≤ 20 then (dataset_size : ℤ) * 50
     else (dataset_size : ℤ) * 25)
    5000

/-- `apply_safety_bounds` from `step_calculator.py`. -/
def apply_safety_bounds (steps : ℤ) (dataset_size : ℕ) (is_incremental : Bool) : ℤ :=
  max (min_steps_bound dataset_size is_incremental) (min steps (max_steps_bound dataset_size))

/-- The modifier cascade of `calculate_optimal_steps` (lines 38-60): each
`steps = int(steps * modifier)` with nonnegative operands is a floor. -/
def modified_steps (dataset_size lora_rank : ℕ) (learning_rate : ℚ)
    (is_incremental : Bool) (task_complexity : String) : ℤ :=
  let s0 : ℤ := calculate_base_steps dataset_size
  let s1 : ℤ := ⌊(s0 : ℚ) * calculate_rank_modifier lora_rank⌋
  let s2 : ℤ := ⌊(s1 : ℚ) * calculate_lr_modifier learning_rate⌋
  let s3 : ℤ := ⌊(s2 : ℚ) * calculate_complexity_modifier task_complexity⌋
  if is_incremental then ⌊(s3 : ℚ) * mkRat 7 10⌋ else s3

/-- `calculate_estimated_epochs` from `step_calculator.py`:
`round(steps / steps_per_epoch, 2)`. -/
def calculate_estimated_epochs (steps : ℤ) (dataset_size : ℕ) : ℚ :=
  if dataset_size = 0 then 0
  else
    let steps_per_epoch : ℕ := max 1 (dataset_size / 4)
    pyRound2Frac steps (steps_per_epoch : ℤ)

/-- `categorize_efficiency` from `step_calculator.py`. -/
def categorize_efficiency (steps : ℤ) (_dataset_size : ℕ) : String :=
  if steps ≤ 300 then "Quick Training (subtle changes)"
  else if steps ≤ 800 then "Standard Training (balanced)"
  else if steps ≤ 1500 then "Thorough Training (comprehensive)"
  else if steps ≤ 3000 then "Intensive Training (complex tasks)"
  else "Maximum Training (very complex)"

/-- `generate_rationale` from `step_calculator.py`: the f-string is embedded
literally, with the trailing `strip()`. -/
def generate_rationale (dataset_size : ℕ) (steps : ℤ) (complexity : String)
    (is_incremental : Bool) : String :=
  let mode := if is_incremental then "incremental" else "initial"
  let header :=
    "\nTraining Configuration (" ++ mode ++ "):\n• Dataset: " ++
      toString dataset_size ++ " examples\n• Steps: " ++ toString steps ++
      "\n• Task: " ++ complexity ++ " complexity\n\nRationale:\n"
  let r1 :=
    if dataset_size ≤ 10 then
      "• Small dataset requires more steps per example for effective learning\n"
    else if 100 ≤ dataset_size then
      "• Large dataset allows for efficient learning with fewer steps per example\n"
    else
      "• Medium dataset size provides balanced training efficiency\n"
  let r2 :=
    if is_incremental then
      "• Incremental training uses fewer steps to preserve existing knowledge\n"
    else ""
  let r3 :=
    if complexity = "simple" then
      "• Simple task complexity allows for quicker convergence\n"
    else if complexity = "complex" then
      "• Complex task requires more training steps for proper learning\n"
    else ""
  let r4 := "• Estimated ~" ++ ratStr (calculate_estimated_epochs steps dataset_size) ++
    " epochs of training\n"
  pyStrip (header ++ r1 ++ r2 ++ r3 ++ r4)

/-- Result record of `calculate_optimal_steps` (the `modifiers` list of
formatted float strings is omitted: no claim concerns it). -/
structure StepPlan where
  steps : ℤ
  base_steps : ℕ
  dataset_size : ℕ
  estimated_epochs : ℚ
  rationale : String
  efficiency_category : String
  deriving Repr, DecidableEq

/-- `calculate_optimal_steps` from `step_calculator.py`. -/
def calculate_optimal_steps (dataset_size : ℕ) (lora_rank : ℕ := 16)
    (learning_rate : ℚ := mkRat 3 10000) (is_incremental : Bool := false)
    (task_complexity : String := "medium") : StepPlan :=
  let final_steps :=
    apply_safety_bounds
      (modified_steps dataset_size lora_rank learning_rate is_incremental task_complexity)
      dataset_size is_incremental
  { steps := final_steps
    base_steps := calculate_base_steps dataset_size
    dataset_size := dataset_size
    estimated_epochs := calculate_estimated_epochs final_steps dataset_size
    rationale := generate_rationale dataset_size final_steps task_complexity is_incremental
    efficiency_category := categorize_efficiency final_steps dataset_size }

/-- The call with all optional parameters at their source defaults
(rank 16, learning rate 3e-4, non-incremental, "medium"). -/
def planDefault (dataset_size : ℕ) : StepPlan := calculate_optimal_steps dataset_size

/-- The spec's scenario call: `plan(exampleCount=5, rank=8,
learningRate=2e-5, isIncremental=False, complexity="simple")`. -/
def plan5 : StepPlan := calculate_optimal_steps 5 8 (mkRat 2 100000) false "simple"

/-- The dataset-size tiers of `calculate_base_steps` (the step function on
example count). -/
def sizeTier (n : ℕ) : ℕ :=
  if n ≤ 5 then 0
  else if n ≤ 10 then 1
  else if n ≤ 15 then 2
  else if n ≤ 25 then 3
  else if n ≤ 50 then 4
  else if n ≤ 100 then 5
  else if n ≤ 200 then 6
  else 7

/-- The base step value of each bounded joint tier (proof helper: tiers 3
and 4 split `calculate_base_steps`'s 16-25 bracket at the 20 breakpoint of
`apply_safety_bounds`, so both map to 800). -/
def baseTable : ℕ → ℕ
  | 0 => 550
  | 1 => 650
  | 2 => 700
  | 3 => 800
  | 4 => 800
  | 5 => 1000
  | 6 => 1300
  | 7 => 1600
  | _ => 0

/-- The joint refinement of every dataset-size bracket appearing in
`calculate_base_steps` and `apply_safety_bounds` (breakpoints 5, 10, 15, 20,
25, 50, 100, 200). -/
def jointTier (n : ℕ) : ℕ :=
  if n ≤ 5 then 0
  else if n ≤ 10 then 1
  else if n ≤ 15 then 2
  else if n ≤ 20 then 3
  else if n ≤ 25 then 4
  else if n ≤ 50 then 5
  else if n ≤ 100 then 6
  else if n ≤ 200 then 7
  else 8

end StepCalculator

/-! ## `models/progress_info.py` -/

namespace Models

/-- `ProgressInfo` dataclass from `models/progress_info.py`. -/
structure ProgressInfo where
  current_step : ℤ
  total_steps : ℤ
  message : String
  percentage : ℚ
  phase : Option String
  deriving Repr, DecidableEq

/-- `ProgressInfo.create`: the percentage is
`min(100.0, current/total*100)` when `total_steps > 0`, else `0.0`. -/
def ProgressInfo.create (current_step total_steps : ℤ) (message : String)
    (phase : Option String := none) : ProgressInfo :=
  { current_step := current_step
    total_steps := total_steps
    message := message
    percentage :=
      if 0 < total_steps then
        min 100 ((current_step : ℚ) / (total_steps : ℚ) * 100)
      else 0
    phase := phase }

end Models

/-! ## `services/lora_trainer.py`, `ProgressCallback.on_step_end` -/

namespace Trainer

/-- The `progress_ratio` local of `on_step_end`: `global_step / max_steps`
when `max_steps > 0`, else `0`. -/
def progressFraction (global_step max_steps : ℕ) : ℚ :=
  if 0 < max_steps then (global_step : ℚ) / (max_steps : ℚ) else 0

/-- The phase tag computed at the end of `on_step_end` (lines 309-316 of
`lora_trainer.py`): thresholds 0.1 and 0.8 on the progress fraction. -/
def training_phase (global_step max_steps : ℕ) : String :=
  let r := progressFraction global_step max_steps
  if r ≤ 1/10 then "warmup"
  else if r ≤ 8/10 then "main_training"
  else "fine_tuning"

end Trainer

/-! ## `utils.py`, `sanitize_model_name`

The only use of the ambient Unicode tables — `name.lower()` followed by
`unicodedata.normalize('NFD', ...)` with removal of combining marks — is
abstracted as a `normalize : String → String` parameter.  Every property
below is proved for an arbitrary `normalize`; idempotence additionally
assumes (truthfully of CPython) that this normalization fixes strings that
are already all-lowercase ASCII over `[a-z0-9_-]`. -/

namespace Utils

/-- Characters kept by the regex `[^a-z0-9_-]` replacement (codepoints of
`a`-`z`, `0`-`9`, `-`, `_`). -/
def validChar (c : Char) : Bool :=
  (97 ≤ c.toNat && c.toNat ≤ 122) || (48 ≤ c.toNat && c.toNat ≤ 57) ||
    c.toNat = 45 || c.toNat = 95

/-- ASCII digit test; on the sanitized alphabet this coincides with Python's
`str.isdigit`. -/
def asciiDigit (c : Char) : Bool := 48 ≤ c.toNat && c.toNat ≤ 57

/-- ASCII uppercase-letter test (`A`-`Z`). -/
def asciiUpper (c : Char) : Bool := 65 ≤ c.toNat && c.toNat ≤ 90

/-- Two adjacent characters that are not both hyphens: the invariant
established by the `-{2,}` collapse. -/
def hyphenPair (a b : Char) : Prop := ¬ (a = '-' ∧ b = '-')

instance : DecidableRel hyphenPair := fun a b =>
  inferInstanceAs (Decidable (¬ (a = '-' ∧ b = '-')))

/-- `re.sub(r'[^a-z0-9_-]', '-', s)`. -/
def replaceInvalid (l : List Char) : List Char :=
  l.map fun c => if validChar c then c else '-'

/-- `re.sub(r'-{2,}', '-', s)`: collapse every run of two or more hyphens
into one. -/
def collapseHyphens : List Char → List Char
  | [] => []
  | [c] => [c]
  | a :: b :: rest =>
    if a = '-' && b = '-' then collapseHyphens (b :: rest)
    else a :: collapseHyphens (b :: rest)

/-- The character set of Python `strip('-_')`. -/
def stripChar (c : Char) : Bool := c = '-' || c = '_'

/-- `s.strip('-_')`. -/
def stripBoth (l : List Char) : List Char :=
  ((l.dropWhile stripChar).reverse.dropWhile stripChar).reverse

/-- `sanitize_model_name` from `utils.py` (the `isinstance` guard is vacuous
for string input and the `except ImportError` accent-map fallback is dead on
CPython, where `unicodedata` always imports; both are part of `normalize`'s
abstraction boundary). -/
def sanitize_model_name (normalize : String → String) (name : String) : String :=
  if name = "" then "unnamed"
  else
    let s1 := normalize name
    let s2 := replaceInvalid s1.data
    let s3 := collapseHyphens s2
    let s4 := stripBoth s3
    let s5 : List Char := if s4 = [] then "unnamed".data else s4
    if asciiDigit (s5.headD ' ') then "model-" ++ String.mk s5
    else String.mk s5

end Utils

/-! ## `models/adapter_info.py` and `services/adapter_manager.py`

The registry directory is modelled as an association list from file name to
record; a `json.dump` to `<id>_adapter.json` is a cons (first match wins on
lookup, so consing is overwriting), `os.path.exists` + `json.load` is
`List.lookup`.  `datetime.now().isoformat()` is a `now` parameter. -/

namespace Adapters

/-- `AdapterInfo` dataclass from `models/adapter_info.py`. -/
structure AdapterInfo where
  adapter_id : String
  adapter_name : String
  base_model : String
  hf_model : String
  adapter_path : String
  registry_path : String
  created_at : String
  enabled : Bool
  training_method : String
  status : String
  persistent : Bool
  last_enabled : Option String
  last_disabled : Option String
  deriving Repr, DecidableEq

/-- `AdapterInfo.create_new`. -/
def AdapterInfo.create_new (adapter_id base_model hf_model adapter_path
    registry_path created_at : String) : AdapterInfo :=
  { adapter_id := adapter_id
    adapter_name := adapter_id ++ "_adapter"
    base_model := base_model
    hf_model := hf_model
    adapter_path := adapter_path
    registry_path := registry_path
    created_at := created_at
    enabled := false
    training_method := "real_lora_peft"
    status := "ready"
    persistent := true
    last_enabled := none
    last_disabled := none }

/-- The on-disk registry directory: file name to parsed record. -/
abbrev Registry := List (String × AdapterInfo)

/-- The registry file name `f"{adapter_id}_adapter.json"`. -/
def registryFile (adapter_id : String) : String := adapter_id ++ "_adapter.json"

/-- `AdapterManager.register_adapter` (happy path: the weight copy to the
persistent directory is a file-system effect outside the state we track;
the registry write is the cons). -/
def register_adapter (normalize : String → String) (reg : Registry)
    (registry_dir project_root : String)
    (adapter_id base_model hf_model _adapter_path now : String) :
    Registry × AdapterInfo :=
  let adapter_id_clean := Utils.sanitize_model_name normalize adapter_id
  let persistent_adapter_path :=
    project_root ++ "/lora_adapters/weights/" ++ adapter_id_clean ++ "_adapter"
  let info := AdapterInfo.create_new adapter_id_clean base_model hf_model
    persistent_adapter_path registry_dir now
  ((registryFile adapter_id_clean, info) :: reg, info)

/-- `AdapterManager.get_adapter_info`: try the original id, then the
sanitized id (only when it differs). -/
def get_adapter_info (normalize : String → String) (reg : Registry)
    (adapter_id : String) : Option AdapterInfo :=
  match reg.lookup (registryFile adapter_id) with
  | some info => some info
  | none =>
    let sanitized := Utils.sanitize_model_name normalize adapter_id
    if sanitized ≠ adapter_id then reg.lookup (registryFile sanitized)
    else none

end Adapters

/-! ## `merge_lora.py`, `svd_merge`

Tensors carry a shape and flattened rational entries.  The floating-point
`torch.linalg.svd` and the rank-`k` product `U[:, :k] @ diag(S[:k]) @
Vh[:k, :]` are abstracted as an oracle (`none` models a raised
`LinAlgError`/`RuntimeError`); the shape check, the `k` computation, the
`S[0] > 1e-10` stability branch and the arithmetic-mean fallbacks are
translated from the source.  Python `set` intersection order is modelled by
first-adapter key order (no claim depends on ordering). -/

namespace Merge

/-- A tensor: shape and flattened entries. -/
structure Tensor where
  shape : List ℕ
  data : List ℚ
  deriving Repr, DecidableEq

/-- `torch.stack(ts, dim=0).mean(dim=0)`: pointwise arithmetic mean. -/
def meanData : List (List ℚ) → List ℚ
  | [] => []
  | d :: rest =>
    (rest.foldl (fun acc l => acc.zipWith (· + ·) l) d).map
      fun x => x / ((1 + rest.length : ℕ) : ℚ)

/-- Arithmetic mean of same-shape tensors. -/
def tensorMean (ts : List Tensor) : Tensor :=
  { shape := (ts.headD ⟨[], []⟩).shape
    data := meanData (ts.map Tensor.data) }

/-- `torch.cat(ts, dim=0)` of same-shape tensors. -/
def tensorCat (ts : List Tensor) : Tensor :=
  { shape := (ts.map fun t => t.shape.headD 0).sum :: (ts.headD ⟨[], []⟩).shape.tail
    data := (ts.map Tensor.data).flatten }

/-- `merged_param[:original_rows, :]` applied only when the first dimension
exceeds `original_rows`. -/
def sliceRows (t : Tensor) (original_rows : ℕ) : Tensor :=
  if original_rows < t.shape.headD 0 then
    { shape := original_rows :: t.shape.tail
      data := t.data.take (original_rows * t.shape.tail.prod) }
  else t

/-- Python `min()` over a shape tuple. -/
def shapeMin : List ℕ → ℕ
  | [] => 0
  | [x] => x
  | x :: xs => min x (shapeMin xs)

/-- Abstraction of the external linear algebra: `svdS` returns the singular
values of `torch.linalg.svd` (or `none` for a raised decomposition error),
`reconstruct t k` the rank-`k` reconstruction of `t`. -/
structure SVDOracle where
  svdS : Tensor → Option (List ℚ)
  reconstruct : Tensor → ℕ → Tensor

/-- The numerical-stability threshold `1e-10` of `svd_merge`. -/
def svdEps : ℚ := mkRat 1 10000000000

/-- The `param_matrices` local of the loop: each adapter's tensor for one
parameter name. -/
def paramTensors (adapters : List (List (String × Tensor))) (name : String) : List Tensor :=
  adapters.map fun a => (a.lookup name).getD ⟨[], []⟩

/-- The `compatible` local: every tensor has the first tensor's shape. -/
def shapesCompatible (adapters : List (List (String × Tensor))) (name : String) : Bool :=
  (paramTensors adapters name).all fun t =>
    t.shape = ((paramTensors adapters name).headD ⟨[], []⟩).shape

/-- The per-parameter body of `svd_merge`'s loop: `none` means the
parameter is skipped (shape mismatch), `some t` that `t` is stored in
`merged_weights`. -/
def merge_param (oracle : SVDOracle) (adapters : List (List (String × Tensor)))
    (name : String) : Option Tensor :=
  let param_matrices := paramTensors adapters name
  let first_shape := (param_matrices.headD ⟨[], []⟩).shape
  if ¬ shapesCompatible adapters name then none
  else if first_shape.length = 2 then
    let concatenated := tensorCat param_matrices
    match oracle.svdS concatenated with
    | none => some (tensorMean param_matrices)
    | some S =>
      let k := min (min 8 (shapeMin concatenated.shape)) S.length
      if 0 < k ∧ svdEps < S.headD 0 then
        some (sliceRows (oracle.reconstruct concatenated k) (first_shape.headD 0))
      else some (tensorMean param_matrices)
  else some (tensorMean param_matrices)

/-- `svd_merge` from `merge_lora.py` on a nonempty adapter list
`first :: rest`: the common parameter names, each merged by
`merge_param`. -/
def svd_merge (oracle : SVDOracle) (first : List (String × Tensor))
    (rest : List (List (String × Tensor))) : List (String × Tensor) :=
  let adapters := first :: rest
  let param_names := (first.map Prod.fst).filter fun n =>
    rest.all fun a => (a.lookup n).isSome
  param_names.filterMap fun name =>
    (merge_param oracle adapters name).map fun t => (name, t)

/-- Merge-witness fixture: first adapter's weights. -/
def wFirst : List (String × Tensor) :=
  [("a", ⟨[2, 2], [1, 2, 3, 4]⟩), ("b", ⟨[2], [1, 2]⟩)]

/-- Merge-witness fixture: the remaining adapters, with `"b"` at an
incompatible shape. -/
def wRest : List (List (String × Tensor)) :=
  [[("a", ⟨[2, 2], [5, 6, 7, 8]⟩), ("b", ⟨[3], [1, 2, 3]⟩)]]

/-- Merge-witness fixture: an SVD oracle whose leading singular value is
zero on every input. -/
def wOracle : SVDOracle := ⟨fun _ => some [0], fun t _ => t⟩

end Merge

/-! ## `orchestrator/training_orchestrator.py`

The pipeline is embedded as a function of its configuration fields and of
the results of its collaborator calls.  A collaborator returning
`Except.error e` models a raised Python exception at that call site (caught
only by the orchestrator's outer `try`); `Except.ok` carries the returned
value, with Python falsiness checked exactly where the source checks it.
Reported progress/error events and explicit `cleanup_memory` calls are
collected in order; `monitor_training_phase` samples live memory (outside
the model) and is recorded as a `memPhase` marker — the explicit
`cleanup_memory(aggressive=True)` calls of the orchestrator are the
`cleanup true` events.  Progress events emitted inside collaborators
(trainer callback, merge helper) belong to those abstractions and are not
part of this event log. -/

namespace Orchestrator

/-- One observable action of the orchestrator. -/
inductive Ev where
  | progress (current total : ℤ) (message : String) (phase : Option String)
  | error (message : String)
  | cleanup (aggressive : Bool)
  | memPhase (name : String)
  deriving Repr, DecidableEq

/-- Configuration fields and collaborator-call results for one pipeline
run. -/
structure Env where
  base_model : String
  data_file : String
  output_name : String
  max_steps : ℤ
  dataFileExists : Bool
  ollamaAvailable : Except String Bool
  loadData : Except String (List String)
  validData : Except String Bool
  formatData : Except String (List String)
  hfModelName : Except String (Option String)
  listModels : Except String (List String)
  trainResult : Except String (Option String)
  mergeDeploy : Except String (Option String)
  registerResult : Option Adapters.AdapterInfo
  deriving Repr

/-- Python truthiness of an optional string (`None` and `""` are falsy). -/
def truthyStr : Option String → Option String
  | none => none
  | some s => if s = "" then none else some s

/-- `TrainingOrchestrator._validate_config`: its internal `try` absorbs
exceptions (here: from `ollama_service.is_available`) into a reported error
and `False`. -/
def validate_config (env : Env) : Bool × List Ev :=
  if env.base_model = "" then (false, [.error "Base model is required"])
  else if env.data_file = "" then (false, [.error "Data file is required"])
  else if ¬ env.dataFileExists then
    (false, [.error ("Data file not found: " ++ env.data_file)])
  else if env.output_name = "" then (false, [.error "Output name is required"])
  else if env.max_steps ≤ 0 then (false, [.error "Max steps must be positive"])
  else
    match env.ollamaAvailable with
    | .error e => (false, [.error ("Configuration validation failed: " ++ e)])
    | .ok false => (false, [.error "Ollama is not available"])
    | .ok true => (true, [])

/-- `TrainingOrchestrator._deploy_base_model_if_needed`: its internal `try`
absorbs exceptions (from `list_models`) into a reported error and `None`. -/
def deploy_base_model (env : Env) : Option String × List Ev :=
  match env.listModels with
  | .error e => (none, [.error ("Failed to deploy base model: " ++ e)])
  | .ok models =>
    if models.contains env.base_model then (some env.base_model, [])
    else (none, [.error ("Model " ++ env.base_model ++ " not available in Ollama")])

/-- The outer `except Exception` handler of `execute_training_pipeline`:
one terminal error event, then an aggressive cleanup, then `None`. -/
def raised (evs : List Ev) (e : String) : Option Adapters.AdapterInfo × List Ev :=
  (none, evs ++ [.error ("Training pipeline failed: " ++ e), .cleanup true])

/-- `TrainingOrchestrator.execute_training_pipeline`. -/
def execute_training_pipeline (env : Env) :
    Option Adapters.AdapterInfo × List Ev :=
  let e0 : List Ev :=
    [.memPhase "pipeline start",
     .progress 2 100 "Validating configuration" (some "setup")]
  match validate_config env with
  | (false, vEv) => (none, e0 ++ vEv)
  | (true, vEv) =>
    let e1 := e0 ++ vEv ++ [.progress 5 100 "Loading training data" (some "data_loading")]
    match env.loadData with
    | .error ex => raised e1 ex
    | .ok training_data =>
      if training_data.isEmpty then (none, e1 ++ [.error "Failed to load training data"])
      else
        let e2 := e1 ++ [.progress 8 100 "Validating training data" (some "data_validation")]
        match env.validData with
        | .error ex => raised e2 ex
        | .ok false => (none, e2 ++ [.error "Training data validation failed"])
        | .ok true =>
          let e3 := e2 ++ [.progress 12 100 "Formatting training data" (some "data_formatting")]
          match env.formatData with
          | .error ex => raised e3 ex
          | .ok formatted_data =>
            if formatted_data.isEmpty then
              (none, e3 ++ [.error "Failed to format training data"])
            else
              let e4 := e3 ++
                [.memPhase "after data loading",
                 .progress 15 100 "Mapping model configuration" (some "model_mapping")]
              match env.hfModelName with
              | .error ex => raised e4 ex
              | .ok hf =>
                match truthyStr hf with
                | none => (none, e4 ++ [.error ("Unsupported model: " ++ env.base_model)])
                | some _ =>
                  let e5 := e4 ++ [.progress 18 100 "Deploying base model" (some "model_deployment")]
                  match deploy_base_model env with
                  | (none, dEv) => (none, e5 ++ dEv)
                  | (some _, dEv) =>
                    let e6 := e5 ++ dEv ++
                      [.memPhase "after base model deployment",
                       .progress 20 100 "Initializing LoRA training" (some "training_init")]
                    match env.trainResult with
                    | .error ex => raised e6 ex
                    | .ok adapter =>
                      match truthyStr adapter with
                      | none => (none, e6 ++ [.error "LoRA training failed"])
                      | some _ =>
                        let e7 := e6 ++
                          [.memPhase "after LoRA training", .cleanup true,
                           .progress 92 100 "Merging and deploying final model"
                             (some "model_finalization")]
                        match env.mergeDeploy with
                        | .error ex => raised e7 ex
                        | .ok finalModel =>
                          match truthyStr finalModel with
                          | none =>
                            (none, e7 ++ [.error "Failed to merge and deploy final model"])
                          | some _ =>
                            let e8 := e7 ++
                              [.memPhase "pipeline completion", .cleanup true,
                               .progress 96 100 "Creating adapter metadata"
                                 (some "metadata_creation"),
                               .progress 98 100 "Registering adapter" (some "registration")]
                            match env.registerResult with
                            | none => (none, e8 ++ [.error "Failed to register adapter"])
                            | some info =>
                              (some info,
                               e8 ++
                                [.progress 100 100 "Training pipeline completed successfully"
                                   (some "completion"),
                                 .memPhase "final cleanup"])

/-- Terminal error events (`ERROR:` lines). -/
def isErrorEv : Ev → Bool
  | .error _ => true
  | _ => false

/-- The aggressive `cleanup_memory(aggressive=True)` calls. -/
def isAggressiveCleanupEv : Ev → Bool
  | .cleanup true => true
  | _ => false

/-- The terminal completion report (100%). -/
def isCompletionEv : Ev → Bool
  | .progress 100 _ _ _ => true
  | _ => false

/-- Pipeline-witness fixture: a run whose configuration validation fails
(empty base model) while every later collaborator would have succeeded. -/
def wEnvValFail : Env :=
  { base_model := ""
    data_file := "d.jsonl"
    output_name := "o"
    max_steps := 100
    dataFileExists := true
    ollamaAvailable := .ok true
    loadData := .ok ["x"]
    validData := .ok true
    formatData := .ok ["x"]
    hfModelName := .ok (some "hf")
    listModels := .ok ["m"]
    trainResult := .ok (some "p")
    mergeDeploy := .ok (some "f")
    registerResult := some (Adapters.AdapterInfo.create_new "o" "b" "h" "p" "r" "t") }

/-- Pipeline-witness fixture: a run that passes validation and then raises
inside `load_data`. -/
def wEnvRaise : Env := { wEnvValFail with base_model := "m", loadData := .error "boom" }

/-- Pipeline-witness fixture: a fully successful run. -/
def wEnvOk : Env := { wEnvValFail with base_model := "m" }

end Orchestrator

/-! # Theorems -/

/-! ## Shared evaluation and monotonicity lemmas for the step calculator -/

/-- Python `int(s * m)` on the nonnegative values of the modifier cascade:
floor of an integer times a rational, expressed with integer division so
that concrete instances evaluate by kernel reduction. -/
theorem floorMulEval (s : ℤ) (q : ℚ) : ⌊(s : ℚ) * q⌋ = s * q.num / (q.den : ℤ) := by
  conv_lhs => rw [← Rat.num_div_den q, mul_div_assoc']
  rw [show ((s : ℚ) * (q.num : ℚ)) = ((s * q.num : ℤ) : ℚ) by push_cast; ring]
  exact Rat.floor_intCast_div_natCast _ _

theorem floor_intCast_mul_mono {a b : ℤ} (q : ℚ) (hq : 0 ≤ q) (h : a ≤ b) :
    ⌊(a : ℚ) * q⌋ ≤ ⌊(b : ℚ) * q⌋ :=
  Int.floor_le_floor (mul_le_mul_of_nonneg_right (by exact_mod_cast h) hq)

namespace StepCalculator

theorem rank_modifier_nonneg (r : ℕ) : 0 ≤ calculate_rank_modifier r := by
  unfold calculate_rank_modifier; split_ifs <;> decide

theorem lr_modifier_nonneg (lr : ℚ) : 0 ≤ calculate_lr_modifier lr := by
  unfold calculate_lr_modifier; split_ifs <;> decide

theorem complexity_modifier_nonneg (c : String) : 0 ≤ calculate_complexity_modifier c := by
  unfold calculate_complexity_modifier; split_ifs <;> decide

theorem jointTier_le (n : ℕ) :
    (jointTier n = 0 ↔ n ≤ 5) ∧ (jointTier n ≤ 1 ↔ n ≤ 10) ∧ (jointTier n ≤ 2 ↔ n ≤ 15) ∧
    (jointTier n ≤ 3 ↔ n ≤ 20) ∧ (jointTier n ≤ 4 ↔ n ≤ 25) ∧ (jointTier n ≤ 5 ↔ n ≤ 50) ∧
    (jointTier n ≤ 6 ↔ n ≤ 100) ∧ (jointTier n ≤ 7 ↔ n ≤ 200) := by
  unfold jointTier
  split_ifs <;> simp only [false_iff, iff_false, true_iff, iff_true] <;> omega

theorem sameBrackets {m n : ℕ} (ht : jointTier m = jointTier n) :
    (m ≤ 5 ↔ n ≤ 5) ∧ (m ≤ 10 ↔ n ≤ 10) ∧ (m ≤ 15 ↔ n ≤ 15) ∧ (m ≤ 20 ↔ n ≤ 20) ∧
    (m ≤ 25 ↔ n ≤ 25) ∧ (m ≤ 50 ↔ n ≤ 50) ∧ (m ≤ 100 ↔ n ≤ 100) ∧ (m ≤ 200 ↔ n ≤ 200) := by
  have hm := jointTier_le m
  have hn := jointTier_le n
  omega

theorem base_eq {n : ℕ} (h : jointTier n ≤ 7) :
    calculate_base_steps n = baseTable (jointTier n) := by
  unfold jointTier at h ⊢
  unfold calculate_base_steps
  set_option maxRecDepth 4000 in
  split_ifs at h ⊢ <;> first | rfl | omega

theorem base_gt200 {n : ℕ} (h : 200 < n) :
    calculate_base_steps n = min (2000 + (n - 200) * 5) 3000 := by
  unfold calculate_base_steps
  split_ifs <;> omega

theorem base_steps_mono {m n : ℕ} (h : m ≤ n) (ht : jointTier m = jointTier n) :
    calculate_base_steps m ≤ calculate_base_steps n := by
  by_cases h200 : n ≤ 200
  · have h7 : jointTier n ≤ 7 := ((jointTier_le n).2.2.2.2.2.2.2).mpr h200
    rw [base_eq (ht ▸ h7), base_eq h7, ht]
  · have hb := sameBrackets ht
    have hm : 200 < m := by omega
    rw [base_gt200 hm, base_gt200 (by omega)]
    omega

theorem modified_steps_mono {m n : ℕ} (r : ℕ) (lr : ℚ) (inc : Bool) (c : String)
    (h : m ≤ n) (ht : jointTier m = jointTier n) :
    modified_steps m r lr inc c ≤ modified_steps n r lr inc c := by
  have hb : (calculate_base_steps m : ℤ) ≤ (calculate_base_steps n : ℤ) := by
    exact_mod_cast base_steps_mono h ht
  have h1 := floor_intCast_mul_mono (calculate_rank_modifier r) (rank_modifier_nonneg r) hb
  have h2 := floor_intCast_mul_mono (calculate_lr_modifier lr) (lr_modifier_nonneg lr) h1
  have h3 := floor_intCast_mul_mono (calculate_complexity_modifier c)
    (complexity_modifier_nonneg c) h2
  cases inc with
  | false => exact h3
  | true => exact floor_intCast_mul_mono (mkRat 7 10) (by decide) h3

theorem min_bound_eq {m n : ℕ} (inc : Bool) (ht : jointTier m = jointTier n) :
    min_steps_bound m inc = min_steps_bound n inc := by
  have hb := sameBrackets ht
  unfold min_steps_bound
  split_ifs <;> omega

theorem max_bound_mono {m n : ℕ} (h : m ≤ n) (ht : jointTier m = jointTier n) :
    max_steps_bound m ≤ max_steps_bound n := by
  have hb := sameBrackets ht
  unfold max_steps_bound
  split_ifs <;> omega

theorem steps_eq_bounds (n r : ℕ) (lr : ℚ) (inc : Bool) (c : String) :
    (calculate_optimal_steps n r lr inc c).steps =
      max (min_steps_bound n inc) (min (modified_steps n r lr inc c) (max_steps_bound n)) := rfl

end StepCalculator

/-! ## Claim C1 -/

/-- C1 counterexample: with the default rank/learning-rate/complexity
parameters and non-incremental mode, 3 examples produce 550 final steps
(not ≤ 200), 1,000 examples produce 3,000 final steps (not ≤ 2,500), and the
safety-bound minimum applied to datasets of ≤ 3 examples is 400 (not
double-digit). -/
theorem C1_counterexample :
    (StepCalculator.planDefault 3).steps = 550 ∧
    ¬ ((StepCalculator.planDefault 3).steps ≤ 200) ∧
    (StepCalculator.planDefault 1000).steps = 3000 ∧
    ¬ ((StepCalculator.planDefault 1000).steps ≤ 2500) ∧
    StepCalculator.min_steps_bound 3 false = 400 ∧
    ¬ (StepCalculator.min_steps_bound 3 false < 100) := by
  simp only [StepCalculator.planDefault, StepCalculator.calculate_optimal_steps,
    StepCalculator.modified_steps, floorMulEval]
  decide

/-- C1 amended: with the default parameters and non-incremental mode, a
dataset of exactly 3 examples yields final step count 550 (≤ 1,000), a
dataset of 1,000 examples yields 3,000, below the absolute ceiling of 5,000
which is the cap applied there; for datasets of ≤ 3 examples the minimum
applied by the safety bounds is 400 (triple-digit; the smallest minimum,
100, applies only to incremental runs). -/
theorem C1_amended :
    (StepCalculator.planDefault 3).steps = 550 ∧
    (StepCalculator.planDefault 3).steps ≤ 1000 ∧
    (StepCalculator.planDefault 1000).steps = 3000 ∧
    (StepCalculator.planDefault 1000).steps ≤ 5000 ∧
    StepCalculator.max_steps_bound 1000 = 5000 ∧
    StepCalculator.min_steps_bound 1 false = 400 ∧
    StepCalculator.min_steps_bound 2 false = 400 ∧
    StepCalculator.min_steps_bound 3 false = 400 ∧
    StepCalculator.min_steps_bound 3 true = 100 := by
  simp only [StepCalculator.planDefault, StepCalculator.calculate_optimal_steps,
    StepCalculator.modified_steps, floorMulEval]
  decide

/-! ## Claim C2 -/

/-- C2 counterexample: with default parameters, 20 and 21 examples lie in
the same dataset-size tier of `calculate_base_steps`, yet the final step
count drops from 800 to 525 (not monotone within the tier); and at 6
examples the result 400 exceeds the tier's maximum bound 300, so the result
does not always lie below the tier maximum. -/
theorem C2_counterexample :
    StepCalculator.sizeTier 20 = StepCalculator.sizeTier 21 ∧
    (StepCalculator.planDefault 21).steps < (StepCalculator.planDefault 20).steps ∧
    StepCalculator.max_steps_bound 6 < (StepCalculator.planDefault 6).steps := by
  simp only [StepCalculator.planDefault, StepCalculator.calculate_optimal_steps,
    StepCalculator.modified_steps, floorMulEval]
  decide

/-- C2 amended: with all other planner inputs held fixed, the final step
count is monotone non-decreasing in the example count within each tier of
the joint refinement of the calculator's dataset-size brackets (breakpoints
5, 10, 15, 20, 25, 50, 100, 200), and the result always lies between the
applied minimum bound and `max(minimum bound, maximum bound)` — the result
can exceed the maximum bound exactly when the minimum bound does. -/
theorem C2_amended :
    (∀ m n lora_rank : ℕ, ∀ lr : ℚ, ∀ inc : Bool, ∀ c : String,
      1 ≤ m → m ≤ n → StepCalculator.jointTier m = StepCalculator.jointTier n →
      (StepCalculator.calculate_optimal_steps m lora_rank lr inc c).steps ≤
        (StepCalculator.calculate_optimal_steps n lora_rank lr inc c).steps) ∧
    (∀ n lora_rank : ℕ, ∀ lr : ℚ, ∀ inc : Bool, ∀ c : String,
      StepCalculator.min_steps_bound n inc ≤
        (StepCalculator.calculate_optimal_steps n lora_rank lr inc c).steps ∧
      (StepCalculator.calculate_optimal_steps n lora_rank lr inc c).steps ≤
        max (StepCalculator.min_steps_bound n inc) (StepCalculator.max_steps_bound n)) := by
  constructor
  · intro m n r lr inc c _ hmn ht
    rw [StepCalculator.steps_eq_bounds, StepCalculator.steps_eq_bounds,
      StepCalculator.min_bound_eq inc ht]
    exact max_le_max le_rfl
      (min_le_min (StepCalculator.modified_steps_mono r lr inc c hmn ht)
        (StepCalculator.max_bound_mono hmn ht))
  · intro n r lr inc c
    rw [StepCalculator.steps_eq_bounds]
    exact ⟨le_max_left _ _, max_le_max le_rfl (min_le_right _ _)⟩

/-- C2 witness: the monotone part applied at 3 ≤ 4 (same joint tier, default
modifiers) and the bounds part applied at 7 examples with the scenario
modifiers. -/
theorem C2_amended_witness :
    ((1 : ℕ) ≤ 3 ∧ (3 : ℕ) ≤ 4 ∧ StepCalculator.jointTier 3 = StepCalculator.jointTier 4 ∧
      (StepCalculator.calculate_optimal_steps 3 16 (mkRat 3 10000) false "medium").steps ≤
        (StepCalculator.calculate_optimal_steps 4 16 (mkRat 3 10000) false "medium").steps) ∧
    StepCalculator.min_steps_bound 7 true ≤
      (StepCalculator.calculate_optimal_steps 7 8 (mkRat 2 100000) true "simple").steps :=
  ⟨⟨by decide, by decide, by decide,
    C2_amended.1 3 4 16 (mkRat 3 10000) false "medium" (by decide) (by decide) (by decide)⟩,
   (C2_amended.2 7 8 (mkRat 2 100000) true "simple").1⟩

/-! ## Claim C3 -/

/-- C3 counterexample: the scenario call returns 457 steps, outside the
claimed interval [50, 300]. -/
theorem C3_counterexample :
    StepCalculator.plan5.steps = 457 ∧ ¬ (StepCalculator.plan5.steps ≤ 300) := by
  simp only [StepCalculator.plan5, StepCalculator.calculate_optimal_steps,
    StepCalculator.modified_steps, floorMulEval]
  decide

/-- C3 amended: `plan(exampleCount=5, rank=8, learningRate=2e-5,
isIncremental=False, complexity="simple")` returns step count 457 — inside
[50, 500] but not [50, 300] — together with a non-empty rationale string
that mentions "small dataset" (capitalized in the source as
"Small dataset"). -/
theorem C3_amended :
    StepCalculator.plan5.steps = 457 ∧
    50 ≤ StepCalculator.plan5.steps ∧ StepCalculator.plan5.steps ≤ 500 ∧
    StepCalculator.plan5.rationale ≠ "" ∧
    strContains StepCalculator.plan5.rationale "Small dataset" = true := by
  simp only [StepCalculator.plan5, StepCalculator.calculate_optimal_steps,
    StepCalculator.modified_steps, StepCalculator.generate_rationale, floorMulEval]
  decide

/-! ## Sanitizer lemmas (`utils.py`) -/

namespace Utils

theorem replaceInvalid_all (l : List Char) : (replaceInvalid l).all validChar = true := by
  simp only [replaceInvalid, List.all_eq_true, List.mem_map]
  rintro c ⟨a, -, rfl⟩
  by_cases h : validChar a <;> simp [h] <;> decide

theorem mem_collapseHyphens : ∀ (l : List Char) (c : Char), c ∈ collapseHyphens l → c ∈ l
  | [], c, h => by simpa [collapseHyphens] using h
  | [a], c, h => by simpa [collapseHyphens] using h
  | a :: b :: rest, c, h => by
    simp only [collapseHyphens] at h
    by_cases hab : a = '-' && b = '-'
    · rw [if_pos hab] at h
      exact List.mem_cons_of_mem a (mem_collapseHyphens (b :: rest) c h)
    · rw [if_neg hab] at h
      rcases List.mem_cons.mp h with h | h
      · exact List.mem_cons.mpr (Or.inl h)
      · exact List.mem_cons_of_mem a (mem_collapseHyphens (b :: rest) c h)

theorem all_collapseHyphens {p : Char → Bool} {l : List Char} (h : l.all p = true) :
    (collapseHyphens l).all p = true := by
  simp only [List.all_eq_true] at h ⊢
  exact fun c hc => h c (mem_collapseHyphens l c hc)

theorem all_stripBoth {p : Char → Bool} {l : List Char} (h : l.all p = true) :
    (stripBoth l).all p = true := by
  simp only [List.all_eq_true] at h ⊢
  intro c hc
  unfold stripBoth at hc
  rw [List.mem_reverse] at hc
  have h1 := (List.dropWhile_sublist _).subset hc
  rw [List.mem_reverse] at h1
  exact h c ((List.dropWhile_sublist _).subset h1)

theorem dropWhile_head_false {p : Char → Bool} :
    ∀ {l : List Char} {c : Char} {cs : List Char}, l.dropWhile p = c :: cs → p c = false
  | [], c, cs, h => by simp [List.dropWhile] at h
  | x :: xs, c, cs, h => by
    rw [List.dropWhile_cons] at h
    by_cases hx : p x
    · rw [if_pos hx] at h
      exact dropWhile_head_false h
    · rw [if_neg hx] at h
      cases h
      simpa using hx

/-- `stripBoth l` is a prefix of the leading-stripped list. -/
theorem stripBoth_prefix_dropWhile (l : List Char) : stripBoth l <+: l.dropWhile stripChar := by
  have h := List.dropWhile_suffix (l := (l.dropWhile stripChar).reverse) stripChar
  have h2 := List.reverse_prefix.mpr h
  rwa [List.reverse_reverse] at h2

theorem stripBoth_head_false {l : List Char} {c : Char}
    (h : (stripBoth l).head? = some c) : stripChar c = false := by
  obtain ⟨t, ht⟩ := stripBoth_prefix_dropWhile l
  cases hsb : stripBoth l with
  | nil => rw [hsb] at h; cases h
  | cons d ds =>
    rw [hsb] at h ht
    cases h
    rw [List.cons_append] at ht
    exact dropWhile_head_false ht.symm

theorem stripBoth_getLast_false {l : List Char} {c : Char}
    (h : (stripBoth l).getLast? = some c) : stripChar c = false := by
  unfold stripBoth at h
  rw [List.getLast?_reverse] at h
  cases hD : ((l.dropWhile stripChar).reverse.dropWhile stripChar) with
  | nil => rw [hD] at h; cases h
  | cons d ds =>
    rw [hD] at h
    cases h
    exact dropWhile_head_false hD

theorem collapseHyphens_head? :
    ∀ (b : Char) (rest : List Char), (collapseHyphens (b :: rest)).head? = some b
  | _, [] => rfl
  | b, r :: rs => by
    simp only [collapseHyphens]
    by_cases h : b = '-' && r = '-'
    · rw [if_pos h, collapseHyphens_head? r rs]
      simp only [Bool.and_eq_true, decide_eq_true_eq] at h
      rw [h.1, h.2]
    · rw [if_neg h]
      rfl

theorem chain'_collapseHyphens : ∀ l : List Char, List.Chain' hyphenPair (collapseHyphens l)
  | [] => by simp [collapseHyphens]
  | [a] => by simp [collapseHyphens]
  | a :: b :: rest => by
    simp only [collapseHyphens]
    by_cases h : a = '-' && b = '-'
    · rw [if_pos h]
      exact chain'_collapseHyphens (b :: rest)
    · rw [if_neg h]
      rw [List.chain'_cons']
      refine ⟨?_, chain'_collapseHyphens (b :: rest)⟩
      intro y hy
      rw [collapseHyphens_head? b rest] at hy
      cases hy
      rintro ⟨ha, hb⟩
      exact h (by rw [ha, hb]; decide)

theorem chain'_stripBoth {l : List Char} (h : List.Chain' hyphenPair l) :
    List.Chain' hyphenPair (stripBoth l) :=
  h.infix ((stripBoth_prefix_dropWhile l).isInfix.trans (List.dropWhile_suffix _).isInfix)

theorem replaceInvalid_id {l : List Char} (h : l.all validChar = true) :
    replaceInvalid l = l := by
  induction l with
  | nil => rfl
  | cons c cs ih =>
    simp only [List.all_cons, Bool.and_eq_true] at h
    have ih2 := ih h.2
    simp only [replaceInvalid, List.map_cons] at ih2 ⊢
    rw [if_pos h.1, ih2]

theorem collapseHyphens_id : ∀ {l : List Char}, List.Chain' hyphenPair l → collapseHyphens l = l
  | [], _ => rfl
  | [_], _ => rfl
  | a :: b :: rest, h => by
    obtain ⟨hR, htail⟩ := List.chain'_cons.mp h
    simp only [collapseHyphens]
    rw [if_neg ?_, collapseHyphens_id htail]
    intro hab
    simp only [Bool.and_eq_true, decide_eq_true_eq] at hab
    exact hR hab

theorem stripBoth_id {l : List Char}
    (hh : ∀ c, l.head? = some c → stripChar c = false)
    (hl : ∀ c, l.getLast? = some c → stripChar c = false) : stripBoth l = l := by
  unfold stripBoth
  have h1 : l.dropWhile stripChar = l := by
    cases l with
    | nil => rfl
    | cons c cs =>
      rw [List.dropWhile_cons, if_neg]
      simp [hh c rfl]
  rw [h1]
  have h2 : l.reverse.dropWhile stripChar = l.reverse := by
    cases hr : l.reverse with
    | nil => rfl
    | cons c cs =>
      have hc : l.getLast? = some c := by
        rw [← List.head?_reverse, hr]
        rfl
      rw [List.dropWhile_cons, if_neg]
      simp [hl c hc]
  rw [h2, List.reverse_reverse]

theorem validChar_not_upper {c : Char} (h : validChar c = true) : asciiUpper c = false := by
  unfold validChar at h
  unfold asciiUpper
  simp only [Bool.or_eq_true, Bool.and_eq_true, decide_eq_true_eq] at h
  by_cases h1 : 65 ≤ c.toNat
  · have h2 : ¬ (c.toNat ≤ 90) := by omega
    simp [h1, h2]
  · simp [h1]

theorem chain'_unnamedData : List.Chain' hyphenPair ("unnamed".data) := by
  rw [show ("unnamed").data = 'u' :: 'n' :: 'n' :: 'a' :: 'm' :: 'e' :: 'd' :: [] from rfl]
  simp only [List.chain'_cons, List.chain'_singleton, and_true]
  refine ⟨?_, ?_, ?_, ?_, ?_, ?_⟩ <;> decide

theorem chain'_modelData : List.Chain' hyphenPair ("model-".data) := by
  rw [show ("model-").data = 'm' :: 'o' :: 'd' :: 'e' :: 'l' :: '-' :: [] from rfl]
  simp only [List.chain'_cons, List.chain'_singleton, and_true]
  refine ⟨?_, ?_, ?_, ?_, ?_⟩ <;> decide

/-- The joint characterization of a sanitizer output: its characters are all
in the sanitized alphabet, it is nonempty, it has no two adjacent hyphens,
its first character is neither a strip character nor a digit, and its last
character is not a strip character. -/
theorem sanitize_spec (normalize : String → String) (s : String) :
    (sanitize_model_name normalize s).data.all validChar = true ∧
    (sanitize_model_name normalize s).data ≠ [] ∧
    List.Chain' hyphenPair (sanitize_model_name normalize s).data ∧
    (∀ c, (sanitize_model_name normalize s).data.head? = some c →
      stripChar c = false ∧ asciiDigit c = false) ∧
    (∀ c, (sanitize_model_name normalize s).data.getLast? = some c →
      stripChar c = false) := by
  by_cases h0 : s = ""
  · simp only [sanitize_model_name, if_pos h0]
    refine ⟨by decide, by decide, chain'_unnamedData, ?_, ?_⟩ <;>
      (intro c hc; cases hc) <;> decide
  · simp only [sanitize_model_name, if_neg h0]
    generalize hA : stripBoth (collapseHyphens (replaceInvalid (normalize s).data)) = A
    have hvalidA : A.all validChar = true := by
      rw [← hA]
      exact all_stripBoth (all_collapseHyphens (replaceInvalid_all _))
    have hchainA : List.Chain' hyphenPair A := by
      rw [← hA]
      exact chain'_stripBoth (chain'_collapseHyphens _)
    have hheadA : ∀ c, A.head? = some c → stripChar c = false := by
      rw [← hA]
      exact fun c hc => stripBoth_head_false hc
    have hlastA : ∀ c, A.getLast? = some c → stripChar c = false := by
      rw [← hA]
      exact fun c hc => stripBoth_getLast_false hc
    clear hA
    by_cases hemp : A = []
    · subst hemp
      rw [if_pos rfl, if_neg (by decide)]
      refine ⟨by decide, by decide, chain'_unnamedData, ?_, ?_⟩ <;>
        (intro c hc; cases hc) <;> decide
    · rw [if_neg hemp]
      cases A with
      | nil => exact absurd rfl hemp
      | cons a0 A' =>
        by_cases hd : asciiDigit ((a0 :: A').headD ' ')
        · rw [if_pos hd]
          simp only [List.headD_cons] at hd
          have hdata : ("model-" ++ String.mk (a0 :: A')).data =
              "model-".data ++ (a0 :: A') := rfl
          refine ⟨?_, ?_, ?_, ?_, ?_⟩
          · rw [hdata, List.all_append]
            simp only [hvalidA, Bool.and_true]
            decide
          · rw [hdata]
            simp
          · rw [hdata, List.chain'_append]
            refine ⟨chain'_modelData, hchainA, ?_⟩
            intro x hx y hy
            simp only [show ("model-".data : List Char).getLast? = some '-' from rfl,
              Option.mem_def, Option.some.injEq] at hx
            simp only [List.head?_cons, Option.mem_def, Option.some.injEq] at hy
            subst hx
            subst hy
            rintro ⟨-, hy2⟩
            rw [hy2] at hd
            exact absurd hd (by decide)
          · intro c hc
            rw [hdata] at hc
            cases hc
            exact ⟨by decide, by decide⟩
          · intro c hc
            rw [hdata, List.getLast?_append_of_ne_nil _ (by simp)] at hc
            exact hlastA c hc
        · rw [if_neg hd]
          simp only [List.headD_cons] at hd
          refine ⟨hvalidA, by simp, hchainA, ?_, ?_⟩
          · intro c hc
            cases hc
            exact ⟨hheadA _ rfl, by simpa using hd⟩
          · exact hlastA

/-- Idempotence of the sanitizer, given that `normalize` fixes
already-sanitized strings. -/
theorem sanitize_idem (normalize : String → String)
    (hn : ∀ t : String, t.data.all validChar = true → normalize t = t) (s : String) :
    sanitize_model_name normalize (sanitize_model_name normalize s) =
      sanitize_model_name normalize s := by
  obtain ⟨hval, hne, hchain, hhead, hlast⟩ := sanitize_spec normalize s
  set o := sanitize_model_name normalize s with ho
  have hostr : o ≠ "" := fun h => hne (by rw [h])
  simp only [sanitize_model_name, if_neg hostr]
  rw [hn o hval, replaceInvalid_id hval, collapseHyphens_id hchain,
    stripBoth_id (fun c hc => (hhead c hc).1) hlast, if_neg hne]
  have hheadD : asciiDigit (o.data.headD ' ') = false := by
    cases hdata : o.data with
    | nil => exact absurd hdata hne
    | cons c cs =>
      simp only [List.headD_cons]
      exact (hhead c (by rw [hdata]; rfl)).2
  rw [if_neg (by rw [hheadD]; simp)]

end Utils

/-! ## Claim C6 -/

/-- C6: for every input string, the sanitizer is idempotent, its output uses
only characters from `[a-z0-9_-]` (hence contains no uppercase letter), and
never begins with a digit; `normalize` abstracts the lowercasing and Unicode
NFD accent-stripping, assumed (truthfully of CPython) to fix strings already
in the sanitized alphabet. -/
theorem C6_sanitize (normalize : String → String)
    (hn : ∀ t : String, t.data.all Utils.validChar = true → normalize t = t)
    (s : String) :
    Utils.sanitize_model_name normalize (Utils.sanitize_model_name normalize s) =
      Utils.sanitize_model_name normalize s ∧
    (Utils.sanitize_model_name normalize s).data.all Utils.validChar = true ∧
    (Utils.sanitize_model_name normalize s).data.all (fun c => !Utils.asciiUpper c) = true ∧
    (∀ c, (Utils.sanitize_model_name normalize s).data.head? = some c →
      Utils.asciiDigit c = false) := by
  obtain ⟨hval, hne, hchain, hhead, hlast⟩ := Utils.sanitize_spec normalize s
  refine ⟨Utils.sanitize_idem normalize hn s, hval, ?_, fun c hc => (hhead c hc).2⟩
  simp only [List.all_eq_true] at hval ⊢
  intro c hc
  simp [Utils.validChar_not_upper (hval c hc)]

/-- C6 witness: the identity normalizer (which fixes sanitized strings) with
a concrete mixed input. -/
theorem C6_sanitize_witness :
    Utils.sanitize_model_name id (Utils.sanitize_model_name id "my Adapter 1!") =
      Utils.sanitize_model_name id "my Adapter 1!" ∧
    (Utils.sanitize_model_name id "my Adapter 1!").data.all Utils.validChar = true :=
  ⟨(C6_sanitize id (fun _ _ => rfl) "my Adapter 1!").1,
   (C6_sanitize id (fun _ _ => rfl) "my Adapter 1!").2.1⟩

/-! ## Registry lemmas and Claim C7 -/

namespace Adapters

theorem registryFile_inj {a b : String} (h : registryFile a = registryFile b) : a = b := by
  unfold registryFile at h
  have hd := congrArg String.data h
  rw [String.data_append, String.data_append] at hd
  have hab := (List.append_inj' hd rfl).1
  cases a
  cases b
  exact congrArg String.mk hab

theorem lookup_none {reg : Registry} {k : String} (h : ∀ p ∈ reg, p.1 ≠ k) :
    List.lookup k reg = none := by
  induction reg with
  | nil => rfl
  | cons p tl ih =>
    obtain ⟨k1, v⟩ := p
    have hne : k1 ≠ k := h (k1, v) (List.mem_cons_self _ _)
    rw [List.lookup_cons, beq_false_of_ne (Ne.symm hne)]
    exact ih fun q hq => h q (List.mem_cons_of_mem _ hq)

end Adapters

/-- C7: registering an adapter under any id (sanitized or not) and then
looking it up with the original unsanitized id returns a record whose
`adapter_id` equals the sanitized form of the original id; the registry is
assumed to hold only files written under sanitized (fixed-point) ids, the
invariant `register_adapter` itself maintains. -/
theorem C7_roundtrip (normalize : String → String)
    (hn : ∀ t : String, t.data.all Utils.validChar = true → normalize t = t)
    (reg : Adapters.Registry)
    (registry_dir project_root adapter_id base_model hf_model adapter_path now : String)
    (hreg : ∀ p ∈ reg, ∃ j, Utils.sanitize_model_name normalize j = j ∧
      p.1 = Adapters.registryFile j) :
    ∃ info,
      Adapters.get_adapter_info normalize
        (Adapters.register_adapter normalize reg registry_dir project_root
          adapter_id base_model hf_model adapter_path now).1 adapter_id = some info ∧
      info.adapter_id = Utils.sanitize_model_name normalize adapter_id := by
  set clean := Utils.sanitize_model_name normalize adapter_id with hclean
  have hidem : Utils.sanitize_model_name normalize clean = clean := by
    rw [hclean]
    exact Utils.sanitize_idem normalize hn adapter_id
  simp only [Adapters.register_adapter]
  refine ⟨Adapters.AdapterInfo.create_new clean base_model hf_model
    (project_root ++ "/lora_adapters/weights/" ++ clean ++ "_adapter")
    registry_dir now, ?_, rfl⟩
  simp only [Adapters.get_adapter_info, ← hclean]
  by_cases heq : clean = adapter_id
  · rw [show (List.lookup (Adapters.registryFile adapter_id)
      ((Adapters.registryFile clean, _) :: reg)) =
        some (Adapters.AdapterInfo.create_new clean base_model hf_model
          (project_root ++ "/lora_adapters/weights/" ++ clean ++ "_adapter")
          registry_dir now) from by rw [heq, List.lookup_cons, beq_self_eq_true]]
  · have hkey : ∀ p ∈ (Adapters.registryFile clean,
        Adapters.AdapterInfo.create_new clean base_model hf_model
          (project_root ++ "/lora_adapters/weights/" ++ clean ++ "_adapter")
          registry_dir now) :: reg, p.1 ≠ Adapters.registryFile adapter_id := by
      intro p hp
      rcases List.mem_cons.mp hp with rfl | hp
      · intro hcontra
        exact heq (Adapters.registryFile_inj hcontra)
      · obtain ⟨j, hj, hj2⟩ := hreg p hp
        rw [hj2]
        intro hcontra
        have hj3 := Adapters.registryFile_inj hcontra
        subst hj3
        exact heq (hclean ▸ hj)
    rw [Adapters.lookup_none hkey, if_pos heq]
    rw [List.lookup_cons, beq_self_eq_true]

/-- C7 witness: an empty registry, the identity normalizer and the
unsanitized id `"My Adapter!"`. -/
theorem C7_roundtrip_witness :
    ∃ info,
      Adapters.get_adapter_info id
        (Adapters.register_adapter id [] "reg" "root"
          "My Adapter!" "gemma3:latest" "hf/gemma" "/tmp/a" "t0").1 "My Adapter!" =
        some info ∧
      info.adapter_id = Utils.sanitize_model_name id "My Adapter!" :=
  C7_roundtrip id (fun _ _ => rfl) [] "reg" "root" "My Adapter!" "gemma3:latest"
    "hf/gemma" "/tmp/a" "t0" (by simp)

/-! ## Claim C4 -/

/-- C4 counterexample: at step 85 of 100 — within the middle of the run,
not in the last 10% — `on_step_end` tags the event `"fine_tuning"`, because
the source's threshold for the final phase is 0.8, not 0.9 (and the emitted
tags are `"main_training"`/`"fine_tuning"`, not `"main"`/`"fine-tuning"`). -/
theorem C4_counterexample :
    Trainer.training_phase 85 100 = "fine_tuning" ∧
    10 * 85 ≤ 9 * 100 ∧
    "fine_tuning" ≠ "main_training" ∧ ("fine_tuning" : String) ≠ "main" := by
  have hf : Trainer.progressFraction 85 100 = (85 : ℚ) / 100 := by
    unfold Trainer.progressFraction
    rw [if_pos (by norm_num)]
    norm_num
  refine ⟨?_, by norm_num, by decide, by decide⟩
  unfold Trainer.training_phase
  rw [hf, if_neg (by norm_num), if_neg (by norm_num)]

/-- C4 amended: for total steps N > 0, the per-step progress event's phase
tag is `"warmup"` when the step is in the first 10% of N (ratio ≤ 0.1),
`"main_training"` when the ratio is in (0.1, 0.8], and `"fine_tuning"` when
the ratio exceeds 0.8 — i.e. the last 20%, not the last 10%. -/
theorem C4_amended (s N : ℕ) (hN : 0 < N) :
    (Trainer.training_phase s N = "warmup" ↔ 10 * s ≤ N) ∧
    (Trainer.training_phase s N = "main_training" ↔ N < 10 * s ∧ 10 * s ≤ 8 * N) ∧
    (Trainer.training_phase s N = "fine_tuning" ↔ 8 * N < 10 * s) := by
  have hNq : (0 : ℚ) < (N : ℚ) := by exact_mod_cast hN
  have hf : Trainer.progressFraction s N = (s : ℚ) / N := by
    unfold Trainer.progressFraction
    rw [if_pos hN]
  have key : ∀ a b : ℕ, 0 < b →
      (((s : ℚ) / N ≤ (a : ℚ) / (b : ℚ)) ↔ s * b ≤ a * N) := by
    intro a b hb
    rw [div_le_div_iff₀ hNq (by exact_mod_cast hb)]
    exact_mod_cast Iff.rfl
  have h1 : ((s : ℚ) / N ≤ 1 / 10) ↔ 10 * s ≤ N := by
    have h := key 1 10 (by norm_num)
    simp only [Nat.cast_one, Nat.cast_ofNat] at h
    rw [h]
    omega
  have h2 : ((s : ℚ) / N ≤ 8 / 10) ↔ 10 * s ≤ 8 * N := by
    have h := key 8 10 (by norm_num)
    simp only [Nat.cast_ofNat] at h
    rw [h]
    omega
  unfold Trainer.training_phase
  rw [hf]
  by_cases c1 : (s : ℚ) / N ≤ 1 / 10
  · rw [if_pos c1]
    have hs := h1.mp c1
    exact ⟨iff_of_true rfl hs, iff_of_false (by decide) (by omega),
      iff_of_false (by decide) (by omega)⟩
  · rw [if_neg c1]
    have hs : ¬ (10 * s ≤ N) := fun h => c1 (h1.mpr h)
    by_cases c2 : (s : ℚ) / N ≤ 8 / 10
    · rw [if_pos c2]
      have hs2 := h2.mp c2
      exact ⟨iff_of_false (by decide) (by omega), iff_of_true rfl (by omega),
        iff_of_false (by decide) (by omega)⟩
    · rw [if_neg c2]
      have hs2 : ¬ (10 * s ≤ 8 * N) := fun h => c2 (h2.mpr h)
      exact ⟨iff_of_false (by decide) (by omega), iff_of_false (by decide) (by omega),
        iff_of_true rfl (by omega)⟩

/-- C4 witness: step 5 of 100 is tagged `"warmup"`, step 50 of 100
`"main_training"`, step 95 of 100 `"fine_tuning"`. -/
theorem C4_amended_witness :
    0 < 100 ∧ Trainer.training_phase 5 100 = "warmup" ∧
    Trainer.training_phase 50 100 = "main_training" ∧
    Trainer.training_phase 95 100 = "fine_tuning" :=
  ⟨by norm_num,
   ((C4_amended 5 100 (by norm_num)).1).mpr (by norm_num),
   ((C4_amended 50 100 (by norm_num)).2.1).mpr (by norm_num),
   ((C4_amended 95 100 (by norm_num)).2.2).mpr (by norm_num)⟩

/-! ## Claim C5 -/

/-- C5 counterexample: `ProgressInfo.create(-1, 10, ...)` has percentage
-10, below 0 — the code clamps only the upper end (`min(100.0, ...)`), so
the percentage is not clamped to [0, 100] for every current/total pair. -/
theorem C5_counterexample :
    (Models.ProgressInfo.create (-1) 10 "" none).percentage = -10 ∧
    ¬ (0 ≤ (Models.ProgressInfo.create (-1) 10 "" none).percentage) := by
  have h : (Models.ProgressInfo.create (-1) 10 "" none).percentage = -10 := by
    simp only [Models.ProgressInfo.create]
    rw [if_pos (by norm_num),
      show (((-1 : ℤ) : ℚ) / ((10 : ℤ) : ℚ) * 100) = -10 by push_cast; norm_num,
      min_eq_right (by norm_num)]
  exact ⟨h, by rw [h]; norm_num⟩

/-- C5 amended: for every non-negative current step and every total, the
percentage lies in [0, 100]; the upper end is clamped by `min(100.0, ...)`,
while the lower end holds because the ratio of non-negative step counts is
non-negative (there is no lower clamp in the code). -/
theorem C5_amended (current_step total_steps : ℤ) (msg : String) (ph : Option String)
    (hc : 0 ≤ current_step) :
    0 ≤ (Models.ProgressInfo.create current_step total_steps msg ph).percentage ∧
    (Models.ProgressInfo.create current_step total_steps msg ph).percentage ≤ 100 := by
  simp only [Models.ProgressInfo.create]
  by_cases ht : 0 < total_steps
  · rw [if_pos ht]
    have h0 : (0 : ℚ) ≤ (current_step : ℚ) / (total_steps : ℚ) * 100 := by
      have hcq : (0 : ℚ) ≤ (current_step : ℚ) := by exact_mod_cast hc
      have htq : (0 : ℚ) ≤ (total_steps : ℚ) := by exact_mod_cast ht.le
      exact mul_nonneg (div_nonneg hcq htq) (by norm_num)
    exact ⟨le_min (by norm_num) h0, min_le_left _ _⟩
  · rw [if_neg ht]
    norm_num

/-- C5 witness: step 1 of 2 gives a percentage inside [0, 100]. -/
theorem C5_amended_witness :
    (0 : ℤ) ≤ 1 ∧
    (0 ≤ (Models.ProgressInfo.create 1 2 "step" none).percentage ∧
      (Models.ProgressInfo.create 1 2 "step" none).percentage ≤ 100) :=
  ⟨by norm_num, C5_amended 1 2 "step" none (by norm_num)⟩

/-! ## Claim C10 -/

/-- C10: for every current step and every total ≤ 0 (including 0), the
`total_steps > 0` guard short-circuits the division and the percentage is
0.0, so constructing the event is total at the zero-total edge case. -/
theorem C10_zero_total (current_step total_steps : ℤ) (msg : String)
    (ph : Option String) (h : total_steps ≤ 0) :
    (Models.ProgressInfo.create current_step total_steps msg ph).percentage = 0 := by
  simp only [Models.ProgressInfo.create]
  rw [if_neg (by omega)]

/-- C10 witness: total steps exactly 0 yields percentage 0. -/
theorem C10_zero_total_witness :
    (0 : ℤ) ≤ 0 ∧ (Models.ProgressInfo.create 7 0 "m" none).percentage = 0 :=
  ⟨le_refl 0, C10_zero_total 7 0 "m" none (by norm_num)⟩

/-! ## Merge lemmas and Claim C8 -/

namespace Merge

theorem lookup_filterMap (names : List String) (g : String → Option Tensor) (k : String) :
    List.lookup k (names.filterMap fun n => (g n).map fun t => (n, t)) =
      if k ∈ names then g k else none := by
  induction names with
  | nil => simp
  | cons n ns ih =>
    simp only [List.filterMap_cons]
    cases hg : g n with
    | none =>
      simp only [hg, Option.map_none']
      rw [ih]
      by_cases hk : k = n
      · subst hk
        by_cases hmem : k ∈ ns <;> simp [hmem, hg]
      · simp [List.mem_cons, hk]
    | some t =>
      simp only [hg, Option.map_some']
      by_cases hk : k = n
      · subst hk
        simp [List.lookup_cons, hg]
      · rw [List.lookup_cons, beq_false_of_ne hk, ih]
        simp [List.mem_cons, hk]

end Merge

/-- C8: for every oracle and nonempty adapter list, every common parameter
with shape-incompatible tensors is skipped (absent from the result) while
every shape-compatible common parameter is merged (present in the result);
and a matrix parameter whose leading singular value is ≤ 1e-10 falls back
to the arithmetic mean of the stacked tensors instead of the SVD product. -/
theorem C8_svd_merge (oracle : Merge.SVDOracle)
    (first : List (String × Merge.Tensor)) (rest : List (List (String × Merge.Tensor)))
    (name : String)
    (hmem : name ∈ (first.map Prod.fst).filter fun n =>
      rest.all fun a => (a.lookup n).isSome) :
    (Merge.shapesCompatible (first :: rest) name = false →
      (Merge.svd_merge oracle first rest).lookup name = none) ∧
    (Merge.shapesCompatible (first :: rest) name = true →
      ((Merge.svd_merge oracle first rest).lookup name).isSome = true) ∧
    (∀ S, Merge.shapesCompatible (first :: rest) name = true →
      ((Merge.paramTensors (first :: rest) name).headD ⟨[], []⟩).shape.length = 2 →
      oracle.svdS (Merge.tensorCat (Merge.paramTensors (first :: rest) name)) = some S →
      S.headD 0 ≤ Merge.svdEps →
      (Merge.svd_merge oracle first rest).lookup name =
        some (Merge.tensorMean (Merge.paramTensors (first :: rest) name))) := by
  have hlk : (Merge.svd_merge oracle first rest).lookup name =
      Merge.merge_param oracle (first :: rest) name := by
    simp only [Merge.svd_merge]
    rw [Merge.lookup_filterMap, if_pos hmem]
  refine ⟨?_, ?_, ?_⟩
  · intro hc
    rw [hlk]
    simp only [Merge.merge_param]
    rw [if_pos (by simp [hc])]
  · intro hc
    rw [hlk]
    simp only [Merge.merge_param]
    rw [if_neg (by simp [hc])]
    by_cases hlen : ((Merge.paramTensors (first :: rest) name).headD ⟨[], []⟩).shape.length = 2
    · rw [if_pos hlen]
      cases hS : oracle.svdS (Merge.tensorCat (Merge.paramTensors (first :: rest) name)) with
      | none => simp
      | some S =>
        simp only []
        split <;> simp
    · rw [if_neg hlen]
      simp
  · intro S hc hlen hS hle
    rw [hlk]
    simp only [Merge.merge_param]
    rw [if_neg (by simp [hc]), if_pos hlen, hS]
    dsimp only
    rw [if_neg ?_]
    rintro ⟨-, hlt⟩
    exact absurd hlt (not_lt.mpr hle)

/-- C8 witness: two adapters sharing parameters `"a"` (compatible 2×2
matrices, zero leading singular value → mean fallback) and `"b"`
(incompatible shapes → skipped). -/
theorem C8_svd_merge_witness :
    (Merge.svd_merge Merge.wOracle Merge.wFirst Merge.wRest).lookup "b" = none ∧
    (Merge.svd_merge Merge.wOracle Merge.wFirst Merge.wRest).lookup "a" =
      some (Merge.tensorMean (Merge.paramTensors (Merge.wFirst :: Merge.wRest) "a")) :=
  ⟨(C8_svd_merge Merge.wOracle Merge.wFirst Merge.wRest "b" (by decide)).1 (by decide),
   (C8_svd_merge Merge.wOracle Merge.wFirst Merge.wRest "a" (by decide)).2.2 [0]
     (by decide) (by decide) rfl (by decide)⟩

/-! ## Orchestrator lemmas and Claim C9 -/

namespace Orchestrator

theorem validate_config_events (env : Env) :
    ((validate_config env).1 = true → (validate_config env).2 = []) ∧
    ((validate_config env).1 = false →
      (validate_config env).2.countP isErrorEv = 1 ∧
      (validate_config env).2.countP isCompletionEv = 0 ∧
      (validate_config env).2.countP isAggressiveCleanupEv = 0) := by
  unfold validate_config
  split_ifs <;>
    (cases h : env.ollamaAvailable with
      | error e =>
        simp [isErrorEv, isCompletionEv, isAggressiveCleanupEv, List.countP_cons]
      | ok b =>
        cases b <;>
          simp [isErrorEv, isCompletionEv, isAggressiveCleanupEv, List.countP_cons])

theorem deploy_events (env : Env) :
    ((deploy_base_model env).1.isSome = true → (deploy_base_model env).2 = []) ∧
    ((deploy_base_model env).1 = none →
      (deploy_base_model env).2.countP isErrorEv = 1 ∧
      (deploy_base_model env).2.countP isCompletionEv = 0 ∧
      (deploy_base_model env).2.countP isAggressiveCleanupEv = 0) := by
  unfold deploy_base_model
  cases h : env.listModels with
  | error e => simp [isErrorEv, isCompletionEv, isAggressiveCleanupEv, List.countP_cons]
  | ok models =>
    by_cases hm : env.base_model ∈ models <;>
      simp [hm, isErrorEv, isCompletionEv, isAggressiveCleanupEv, List.countP_cons]

end Orchestrator

/-- C9 counterexample: a validation failure short-circuits the run with one
terminal error event and returns the failure sentinel, but performs no
aggressive memory cleanup — contradicting the claim that every failing
phase triggers one. -/
theorem C9_counterexample :
    (Orchestrator.execute_training_pipeline Orchestrator.wEnvValFail).1 = none ∧
    (Orchestrator.execute_training_pipeline Orchestrator.wEnvValFail).2.countP
      Orchestrator.isErrorEv = 1 ∧
    (Orchestrator.execute_training_pipeline Orchestrator.wEnvValFail).2.countP
      Orchestrator.isAggressiveCleanupEv = 0 := by
  decide

set_option maxHeartbeats 3200000 in
/-- C9 amended: every failing phase short-circuits the pipeline (the
terminal 100% event is never emitted), exactly one terminal error event is
emitted on failure and none on success, and the orchestrator returns the
failure sentinel `none` without letting a collaborator exception escape;
the aggressive memory cleanup, however, runs only when the failure is a
raised exception reaching the outer handler (shown here for `load_data`) —
graceful falsy-result failures such as validation return without any
aggressive cleanup. -/
theorem C9_amended (env : Orchestrator.Env) :
    ((Orchestrator.execute_training_pipeline env).2.countP Orchestrator.isErrorEv =
      if (Orchestrator.execute_training_pipeline env).1.isSome then 0 else 1) ∧
    ((Orchestrator.execute_training_pipeline env).1 = none →
      (Orchestrator.execute_training_pipeline env).2.countP Orchestrator.isCompletionEv = 0) ∧
    ((Orchestrator.validate_config env).1 = false →
      (Orchestrator.execute_training_pipeline env).2.countP
        Orchestrator.isAggressiveCleanupEv = 0) ∧
    ((Orchestrator.validate_config env).1 = true → ∀ e, env.loadData = Except.error e →
      (Orchestrator.execute_training_pipeline env).1 = none ∧
      0 < (Orchestrator.execute_training_pipeline env).2.countP
        Orchestrator.isAggressiveCleanupEv) := by
  obtain ⟨hv1, hv2⟩ := Orchestrator.validate_config_events env
  obtain ⟨hd1, hd2⟩ := Orchestrator.deploy_events env
  rcases hval : Orchestrator.validate_config env with ⟨vb, vEv⟩
  rw [hval] at hv1 hv2
  simp only at hv1 hv2
  cases vb with
  | false =>
    obtain ⟨hve, hvc, hvg⟩ := hv2 rfl
    simp only [Orchestrator.execute_training_pipeline, hval]
    refine ⟨?_, ?_, ?_, ?_⟩ <;>
          simp_all [Orchestrator.raised, List.countP_append, List.countP_cons,
            Orchestrator.isErrorEv, Orchestrator.isCompletionEv,
            Orchestrator.isAggressiveCleanupEv]
  | true =>
    have hvEv := hv1 rfl
    subst hvEv
    simp only [Orchestrator.execute_training_pipeline, hval]
    rcases hld : env.loadData with e | data
    · try simp only [hld]
      refine ⟨?_, ?_, ?_, ?_⟩ <;>
          simp_all [Orchestrator.raised, List.countP_append, List.countP_cons,
            Orchestrator.isErrorEv, Orchestrator.isCompletionEv,
            Orchestrator.isAggressiveCleanupEv]
    · try simp only [hld]
      by_cases hde : data.isEmpty
      · simp only [if_pos hde]
        refine ⟨?_, ?_, ?_, ?_⟩ <;>
          simp_all [Orchestrator.raised, List.countP_append, List.countP_cons,
            Orchestrator.isErrorEv, Orchestrator.isCompletionEv,
            Orchestrator.isAggressiveCleanupEv]
      · simp only [if_neg hde]
        rcases hvd : env.validData with e | b
        · try simp only [hvd]
          refine ⟨?_, ?_, ?_, ?_⟩ <;>
          simp_all [Orchestrator.raised, List.countP_append, List.countP_cons,
            Orchestrator.isErrorEv, Orchestrator.isCompletionEv,
            Orchestrator.isAggressiveCleanupEv]
        · try simp only [hvd]
          cases b with
          | false =>
            refine ⟨?_, ?_, ?_, ?_⟩ <;>
          simp_all [Orchestrator.raised, List.countP_append, List.countP_cons,
            Orchestrator.isErrorEv, Orchestrator.isCompletionEv,
            Orchestrator.isAggressiveCleanupEv]
          | true =>
            rcases hfd : env.formatData with e | fdata
            · try simp only [hfd]
              refine ⟨?_, ?_, ?_, ?_⟩ <;>
          simp_all [Orchestrator.raised, List.countP_append, List.countP_cons,
            Orchestrator.isErrorEv, Orchestrator.isCompletionEv,
            Orchestrator.isAggressiveCleanupEv]
            · try simp only [hfd]
              by_cases hfe : fdata.isEmpty
              · simp only [if_pos hfe]
                refine ⟨?_, ?_, ?_, ?_⟩ <;>
          simp_all [Orchestrator.raised, List.countP_append, List.countP_cons,
            Orchestrator.isErrorEv, Orchestrator.isCompletionEv,
            Orchestrator.isAggressiveCleanupEv]
              · simp only [if_neg hfe]
                rcases hhf : env.hfModelName with e | o
                · try simp only [hhf]
                  refine ⟨?_, ?_, ?_, ?_⟩ <;>
          simp_all [Orchestrator.raised, List.countP_append, List.countP_cons,
            Orchestrator.isErrorEv, Orchestrator.isCompletionEv,
            Orchestrator.isAggressiveCleanupEv]
                · try simp only [hhf]
                  rcases o with _ | hfname
                  · simp only [Orchestrator.truthyStr]
                    refine ⟨?_, ?_, ?_, ?_⟩ <;>
          simp_all [Orchestrator.raised, List.countP_append, List.countP_cons,
            Orchestrator.isErrorEv, Orchestrator.isCompletionEv,
            Orchestrator.isAggressiveCleanupEv]
                  · by_cases hs : hfname = ""
                    · simp only [Orchestrator.truthyStr, if_pos hs]
                      refine ⟨?_, ?_, ?_, ?_⟩ <;>
          simp_all [Orchestrator.raised, List.countP_append, List.countP_cons,
            Orchestrator.isErrorEv, Orchestrator.isCompletionEv,
            Orchestrator.isAggressiveCleanupEv]
                    · simp only [Orchestrator.truthyStr, if_neg hs]
                      rcases hdep : Orchestrator.deploy_base_model env with ⟨dres, dEv⟩
                      rw [hdep] at hd1 hd2
                      simp only at hd1 hd2
                      try simp only [hdep]
                      cases dres with
                      | none =>
                        obtain ⟨hde1, hdc, hdg⟩ := hd2 rfl
                        refine ⟨?_, ?_, ?_, ?_⟩ <;>
          simp_all [Orchestrator.raised, List.countP_append, List.countP_cons,
            Orchestrator.isErrorEv, Orchestrator.isCompletionEv,
            Orchestrator.isAggressiveCleanupEv]
                      | some dm =>
                        have hdEv : dEv = [] := hd1 (by simp)
                        subst hdEv
                        rcases htr : env.trainResult with e | ad
                        · try simp only [htr]
                          refine ⟨?_, ?_, ?_, ?_⟩ <;>
          simp_all [Orchestrator.raised, List.countP_append, List.countP_cons,
            Orchestrator.isErrorEv, Orchestrator.isCompletionEv,
            Orchestrator.isAggressiveCleanupEv]
                        · try simp only [htr]
                          rcases ad with _ | ap
                          · simp only [Orchestrator.truthyStr]
                            refine ⟨?_, ?_, ?_, ?_⟩ <;>
          simp_all [Orchestrator.raised, List.countP_append, List.countP_cons,
            Orchestrator.isErrorEv, Orchestrator.isCompletionEv,
            Orchestrator.isAggressiveCleanupEv]
                          · by_cases hap : ap = ""
                            · simp only [Orchestrator.truthyStr, if_pos hap]
                              refine ⟨?_, ?_, ?_, ?_⟩ <;>
          simp_all [Orchestrator.raised, List.countP_append, List.countP_cons,
            Orchestrator.isErrorEv, Orchestrator.isCompletionEv,
            Orchestrator.isAggressiveCleanupEv]
                            · simp only [Orchestrator.truthyStr, if_neg hap]
                              rcases hmg : env.mergeDeploy with e | fm
                              · try simp only [hmg]
                                refine ⟨?_, ?_, ?_, ?_⟩ <;>
          simp_all [Orchestrator.raised, List.countP_append, List.countP_cons,
            Orchestrator.isErrorEv, Orchestrator.isCompletionEv,
            Orchestrator.isAggressiveCleanupEv]
                              · try simp only [hmg]
                                rcases fm with _ | fname
                                · simp only [Orchestrator.truthyStr]
                                  refine ⟨?_, ?_, ?_, ?_⟩ <;>
          simp_all [Orchestrator.raised, List.countP_append, List.countP_cons,
            Orchestrator.isErrorEv, Orchestrator.isCompletionEv,
            Orchestrator.isAggressiveCleanupEv]
                                · by_cases hfn : fname = ""
                                  · simp only [Orchestrator.truthyStr, if_pos hfn]
                                    refine ⟨?_, ?_, ?_, ?_⟩ <;>
          simp_all [Orchestrator.raised, List.countP_append, List.countP_cons,
            Orchestrator.isErrorEv, Orchestrator.isCompletionEv,
            Orchestrator.isAggressiveCleanupEv]
                                  · simp only [Orchestrator.truthyStr, if_neg hfn]
                                    rcases hrg : env.registerResult with _ | info
                                    · try simp only [hrg]
                                      refine ⟨?_, ?_, ?_, ?_⟩ <;>
          simp_all [Orchestrator.raised, List.countP_append, List.countP_cons,
            Orchestrator.isErrorEv, Orchestrator.isCompletionEv,
            Orchestrator.isAggressiveCleanupEv]
                                    · try simp only [hrg]
                                      refine ⟨?_, ?_, ?_, ?_⟩ <;>
          simp_all [Orchestrator.raised, List.countP_append, List.countP_cons,
            Orchestrator.isErrorEv, Orchestrator.isCompletionEv,
            Orchestrator.isAggressiveCleanupEv]

/-- C9 witness: the raised-exception part applied to the fixture that fails
inside `load_data` (returns `none`, performs an aggressive cleanup), with
the validation hypothesis discharged concretely. -/
theorem C9_amended_witness :
    (Orchestrator.validate_config Orchestrator.wEnvRaise).1 = true ∧
    (Orchestrator.execute_training_pipeline Orchestrator.wEnvRaise).1 = none ∧
    0 < (Orchestrator.execute_training_pipeline Orchestrator.wEnvRaise).2.countP
      Orchestrator.isAggressiveCleanupEv :=
  ⟨by decide,
   ((C9_amended Orchestrator.wEnvRaise).2.2.2 (by decide) "boom" rfl).1,
   ((C9_amended Orchestrator.wEnvRaise).2.2.2 (by decide) "boom" rfl).2⟩

end OrchMind
